import Mathlib

/-!
Verification of the reconciliation core of rpi-cloudflare-ddns.

The development shallowly embeds the functions of src/main.py (version 2.0.0,
the module under test of tests/test_main.py): the pure reconciliation function
prepare_updates, the ttl selection performed by run, and the per-record update
loop update_records.  Python strings are modelled over their character lists
with ASCII case folding, matching the inputs the program handles (domain
names and IPv4 strings).  Python dictionary access that can raise KeyError is
modelled with Except; the provider API of update_records is modelled as an
oracle from the call payload to a success flag.
-/

namespace DDNS

/-- Model of the str.lower method restricted to ASCII: every character is
case-folded with Char.toLower (which maps only the basic latin letters). -/
def pyLower (s : String) : String :=
  ⟨s.data.map Char.toLower⟩

/-- Characters removed by str.strip with no argument (ASCII whitespace). -/
def pyIsSpace (c : Char) : Bool :=
  c == ' ' || c == '\t' || c == '\n' || c == '\r' || c == '\x0b' || c == '\x0c'

/-- Helper for pyStrip on character lists: drop whitespace at both ends. -/
def pyStripList (l : List Char) : List Char :=
  ((l.dropWhile pyIsSpace).reverse.dropWhile pyIsSpace).reverse

/-- Model of the str.strip method with no argument. -/
def pyStrip (s : String) : String :=
  ⟨pyStripList s.data⟩

/-- An A record as returned by the provider SDK; the fields read by
prepare_updates are id, name, type and content (main.py lines 262-272). -/
structure ARecord where
  id : String
  name : String
  type : String
  content : String
deriving Repr, DecidableEq

/-- One entry of the subdomains list of the configuration.  The schema
(main.py line 42) requires name and marks proxied optional; a ttl key is kept
in the model because the tests declare it, although prepare_updates never
reads it. -/
structure Subdomain where
  name : String
  proxied : Option Bool
  ttl : Option Int
deriving Repr, DecidableEq

/-- The zone configuration consumed by prepare_updates (zone_id, zone_name,
subdomains) together with the optional global ttl read by run. -/
structure Config where
  zone_id : String
  zone_name : String
  ttl : Option Int
  subdomains : List Subdomain
deriving Repr, DecidableEq

/-- The dataclass DnsUpdateRequest of main.py lines 50-57; it has exactly the
six fields zone_id, fqdn, record_id, record_type, proxied, content. -/
structure DnsUpdateRequest where
  zone_id : String
  fqdn : String
  record_id : String
  record_type : String
  proxied : Bool
  content : String
deriving Repr, DecidableEq

/-- The record_map built in prepare_updates (lines 250-252) keyed by the
lower-cased record name, followed by record_map.get(fqdn): iterating the
records in order with last write winning is a left fold. -/
def record_map_get (records : List ARecord) (fqdn : String) : Option ARecord :=
  records.foldl (fun acc r => if pyLower r.name == fqdn then some r else acc) none

/-- The fqdn computed for a subdomain spec (lines 255-260): the name is
lower-cased then stripped, and the fqdn is the base domain for the apex
names "" and "@", otherwise name.base_domain. -/
def specFqdn (base_domain : String) (sub : Subdomain) : String :=
  let name := pyStrip (pyLower sub.name)
  if name ≠ "" ∧ name ≠ "@" then name ++ "." ++ base_domain else base_domain

/-- The body of the subdomain loop of prepare_updates (lines 254-273).
Accessing subdomain["proxied"] raises KeyError when the key is absent, which
the schema permits; this is modelled by Except.error. -/
def processSubdomain (zone_id base_domain : String) (records : List ARecord)
    (ip : String) (acc : List DnsUpdateRequest) (sub : Subdomain) :
    Except String (List DnsUpdateRequest) :=
  match sub.proxied with
  | none => .error "KeyError: proxied"
  | some proxied =>
    let name := pyStrip (pyLower sub.name)
    let fqdn := if name ≠ "" ∧ name ≠ "@" then name ++ "." ++ base_domain else base_domain
    match record_map_get records fqdn with
    | none => .ok acc
    | some record =>
      if record.content ≠ ip then
        .ok (acc ++ [⟨zone_id, fqdn, record.id, record.type, proxied, record.content⟩])
      else
        .ok acc

/-- prepare_updates of main.py lines 237-275: fold the subdomain loop over
the specs in declaration order, starting from the empty updates list. -/
def prepare_updates (config : Config) (records : List ARecord) (ip : String) :
    Except String (List DnsUpdateRequest) :=
  config.subdomains.foldlM (processSubdomain config.zone_id config.zone_name records ip) []

/-- The ttl actually used by run (line 323): int(config.get("ttl", 300)),
the global ttl with default 300; subdomain-level ttl values play no part. -/
def run_ttl (config : Config) : Int :=
  config.ttl.getD 300

/-- The keyword payload of the cf.dns.records.update call in update_records
(lines 289-298), without the timestamp comment. -/
structure ApiCall where
  dns_record_id : String
  zone_id : String
  content : String
  name : String
  type : String
  proxied : Bool
  ttl : Int
deriving Repr, DecidableEq

/-- itertools.groupby followed by full iteration: split a list into maximal
runs of consecutive elements with equal keys. -/
def pyGroupBy {α : Type} (key : α → String) : List α → List (List α)
  | [] => []
  | a :: rest =>
    (a :: rest.takeWhile (fun x => key x == key a)) ::
      pyGroupBy key (rest.dropWhile (fun x => key x == key a))
termination_by l => l.length
decreasing_by
  simp only [List.length_cons]
  exact Nat.lt_succ_of_le ((List.dropWhile_sublist _).length_le)

/-- The update call payload built for one DnsUpdateRequest: the group key as
zone_id, the new ip as content, and the caller-supplied ttl. -/
def makeCall (zone_id : String) (u : DnsUpdateRequest) (ip : String) (ttl : Int) : ApiCall :=
  ⟨u.record_id, zone_id, ip, u.fqdn, u.record_type, u.proxied, ttl⟩

/-- update_records of main.py lines 278-310: group the updates by zone_id,
then attempt the update call for each request of each group; the inner
try/except records the outcome per record and continues, so every request is
attempted and paired with its own api outcome. -/
def update_records (updates : List DnsUpdateRequest) (ip : String) (ttl : Int)
    (api : ApiCall → Bool) : List (ApiCall × Bool) :=
  (pyGroupBy (fun u => u.zone_id) updates).flatMap fun grp =>
    match grp with
    | [] => []
    | a :: _ =>
      grp.map fun u =>
        let call := makeCall a.zone_id u ip ttl
        (call, api call)


/-- Analysis helper: the optional update emitted for one subdomain spec whose
proxied flag is present. -/
def emitFor (zone_id base_domain : String) (records : List ARecord) (ip : String)
    (sub : Subdomain) (proxied : Bool) : Option DnsUpdateRequest :=
  match record_map_get records (specFqdn base_domain sub) with
  | none => none
  | some record =>
    if record.content ≠ ip then
      some ⟨zone_id, specFqdn base_domain sub, record.id, record.type, proxied, record.content⟩
    else
      none

/-- Analysis helper: the full updates list produced when every spec carries a
proxied flag. -/
def updatesPure (zone_id base_domain : String) (records : List ARecord) (ip : String) :
    List Subdomain → List DnsUpdateRequest
  | [] => []
  | sub :: rest =>
    (emitFor zone_id base_domain records ip sub (sub.proxied.getD false)).toList ++
      updatesPure zone_id base_domain records ip rest

theorem processSubdomain_eq (zone_id base_domain : String) (records : List ARecord)
    (ip : String) (acc : List DnsUpdateRequest) (sub : Subdomain) :
    processSubdomain zone_id base_domain records ip acc sub =
      match sub.proxied with
      | none => .error "KeyError: proxied"
      | some proxied => .ok (acc ++ (emitFor zone_id base_domain records ip sub proxied).toList) := by
  unfold processSubdomain emitFor specFqdn
  cases sub.proxied with
  | none => rfl
  | some p =>
    simp only
    cases h : record_map_get records _ with
    | none => simp
    | some record =>
      by_cases hc : record.content ≠ ip
      · simp [hc]
      · simp [hc]

theorem foldlM_ok_of_proxied (zone_id base_domain : String) (records : List ARecord)
    (ip : String) (subs : List Subdomain) (acc : List DnsUpdateRequest)
    (h : ∀ s ∈ subs, s.proxied.isSome) :
    List.foldlM (processSubdomain zone_id base_domain records ip) acc subs =
      .ok (acc ++ updatesPure zone_id base_domain records ip subs) := by
  induction subs generalizing acc with
  | nil =>
    show Except.ok acc = _
    simp [updatesPure]
  | cons sub rest ih =>
    rw [List.foldlM_cons, processSubdomain_eq]
    cases hp : sub.proxied with
    | none =>
      exact absurd (h sub (List.mem_cons_self _ _)) (by simp [hp])
    | some p =>
      simp only
      have hbind : ∀ (x : List DnsUpdateRequest)
          (f : List DnsUpdateRequest → Except String (List DnsUpdateRequest)),
          (Except.ok x) >>= f = f x := fun _ _ => rfl
      rw [hbind]
      rw [ih _ (fun s hs => h s (List.mem_cons_of_mem _ hs))]
      simp [updatesPure, hp]

theorem foldlM_ok_proxied (zone_id base_domain : String) (records : List ARecord)
    (ip : String) (subs : List Subdomain) (acc l : List DnsUpdateRequest)
    (h : List.foldlM (processSubdomain zone_id base_domain records ip) acc subs = .ok l) :
    ∀ s ∈ subs, s.proxied.isSome := by
  induction subs generalizing acc with
  | nil => intro s hs; cases hs
  | cons sub rest ih =>
    intro s hs
    rw [List.foldlM_cons, processSubdomain_eq] at h
    cases hp : sub.proxied with
    | none =>
      rw [hp] at h
      exact absurd h (by intro hcon; cases hcon)
    | some p =>
      rw [hp] at h
      have hbind : ∀ (x : List DnsUpdateRequest)
          (f : List DnsUpdateRequest → Except String (List DnsUpdateRequest)),
          (Except.ok x) >>= f = f x := fun _ _ => rfl
      rw [hbind] at h
      rcases List.mem_cons.mp hs with rfl | hmem
      · simp [hp]
      · exact ih _ h s hmem

theorem prepare_updates_ok_iff (config : Config) (records : List ARecord) (ip : String)
    (l : List DnsUpdateRequest) :
    prepare_updates config records ip = .ok l ↔
      ((∀ s ∈ config.subdomains, s.proxied.isSome) ∧
        l = updatesPure config.zone_id config.zone_name records ip config.subdomains) := by
  constructor
  · intro h
    have hp := foldlM_ok_proxied _ _ _ _ _ _ _ h
    refine ⟨hp, ?_⟩
    rw [prepare_updates, foldlM_ok_of_proxied _ _ _ _ _ _ hp] at h
    simpa using (Except.ok.inj h).symm
  · rintro ⟨hp, rfl⟩
    rw [prepare_updates, foldlM_ok_of_proxied _ _ _ _ _ _ hp]
    simp

theorem mem_updatesPure (zone_id base_domain : String) (records : List ARecord)
    (ip : String) (subs : List Subdomain) (u : DnsUpdateRequest)
    (h : u ∈ updatesPure zone_id base_domain records ip subs) :
    ∃ s ∈ subs, emitFor zone_id base_domain records ip s (s.proxied.getD false) = some u := by
  induction subs with
  | nil => cases h
  | cons sub rest ih =>
    rw [updatesPure, List.mem_append] at h
    rcases h with h | h
    · refine ⟨sub, List.mem_cons_self _ _, ?_⟩
      cases he : emitFor zone_id base_domain records ip sub (sub.proxied.getD false) with
      | none => rw [he] at h; cases h
      | some v =>
        rw [he] at h
        simp only [Option.toList_some, List.mem_singleton] at h
        rw [h]
    · obtain ⟨s, hs, he⟩ := ih h
      exact ⟨s, List.mem_cons_of_mem _ hs, he⟩

theorem emitFor_some (zone_id base_domain : String) (records : List ARecord)
    (ip : String) (sub : Subdomain) (proxied : Bool) (u : DnsUpdateRequest)
    (h : emitFor zone_id base_domain records ip sub proxied = some u) :
    ∃ r, record_map_get records (specFqdn base_domain sub) = some r ∧
      r.content ≠ ip ∧
      u = ⟨zone_id, specFqdn base_domain sub, r.id, r.type, proxied, r.content⟩ := by
  unfold emitFor at h
  cases hg : record_map_get records (specFqdn base_domain sub) with
  | none => rw [hg] at h; cases h
  | some r =>
    rw [hg] at h
    dsimp only at h
    by_cases hc : r.content ≠ ip
    · rw [if_pos hc] at h
      exact ⟨r, rfl, hc, (Option.some.inj h).symm⟩
    · rw [if_neg hc] at h
      cases h

theorem record_map_get_aux (fqdn : String) (records : List ARecord) :
    ∀ (acc : Option ARecord), (∀ r0, acc = some r0 → pyLower r0.name = fqdn) →
    ∀ r, records.foldl (fun acc r0 => if pyLower r0.name == fqdn then some r0 else acc) acc = some r →
    pyLower r.name = fqdn := by
  induction records with
  | nil =>
    intro acc hacc r hfold
    exact hacc r hfold
  | cons a rest ih =>
    intro acc hacc r hfold
    rw [List.foldl_cons] at hfold
    by_cases hb : pyLower a.name == fqdn
    · rw [if_pos hb] at hfold
      refine ih _ ?_ r hfold
      intro r0 h0
      rw [← Option.some.inj h0]
      exact beq_iff_eq.mp hb
    · rw [if_neg hb] at hfold
      exact ih _ hacc r hfold

theorem record_map_get_some (records : List ARecord) (fqdn : String) (r : ARecord)
    (h : record_map_get records fqdn = some r) : pyLower r.name = fqdn := by
  rw [record_map_get] at h
  exact record_map_get_aux fqdn records none (by intro r0 h0; cases h0) r h

theorem updatesPure_map_fqdn_sublist (zone_id base_domain : String) (records : List ARecord)
    (ip : String) (subs : List Subdomain) :
    ((updatesPure zone_id base_domain records ip subs).map DnsUpdateRequest.fqdn).Sublist
      (subs.map (specFqdn base_domain)) := by
  induction subs with
  | nil => simp [updatesPure]
  | cons sub rest ih =>
    rw [updatesPure, List.map_append, List.map_cons]
    cases he : emitFor zone_id base_domain records ip sub (sub.proxied.getD false) with
    | none =>
      simp only [Option.toList_none, List.map_nil, List.nil_append]
      exact ih.cons _
    | some u =>
      obtain ⟨r, _, _, hu⟩ := emitFor_some _ _ _ _ _ _ _ he
      simp only [Option.toList_some, List.map_cons, List.map_nil, List.singleton_append]
      rw [hu]
      exact ih.cons₂ _

theorem toLower_not_upper (c : Char) : (Char.toLower c).isUpper = false := by
  have ule : ∀ (a b : UInt32), a ≤ b ↔ a.toNat ≤ b.toNat := by
    intro a b
    rw [UInt32.le_def, BitVec.le_def]
    exact Iff.rfl
  simp only [Char.toLower, Char.toNat]
  by_cases h : c.val.toNat ≥ 65 ∧ c.val.toNat ≤ 90
  · rw [if_pos h]
    have hv : (c.val.toNat + 32).isValidChar := by
      left
      omega
    simp only [Char.ofNat, dif_pos hv]
    unfold Char.ofNatAux Char.isUpper
    rw [Bool.and_eq_false_iff]
    right
    rw [decide_eq_false_iff_not]
    intro hle
    have h2 := (ule _ _).mp hle
    have h90 : (90 : UInt32).toNat = 90 := rfl
    rw [h90] at h2
    simp only [UInt32.toNat, BitVec.toNat_ofNatLt] at h2
    have hh : c.val.toBitVec.toNat = c.val.toNat := rfl
    omega
  · rw [if_neg h]
    unfold Char.isUpper
    rw [Bool.and_eq_false_iff]
    rcases Nat.lt_or_ge c.val.toNat 65 with h1 | h1
    · left
      rw [decide_eq_false_iff_not]
      intro hge
      have h2 := (ule _ _).mp hge
      have h65 : (65 : UInt32).toNat = 65 := rfl
      rw [h65] at h2
      omega
    · right
      rw [decide_eq_false_iff_not]
      intro hle
      have h2 := (ule _ _).mp hle
      have h90 : (90 : UInt32).toNat = 90 := rfl
      rw [h90] at h2
      omega

theorem pyLower_no_upper (s : String) (c : Char) (hc : c ∈ (pyLower s).data) :
    c.isUpper = false := by
  rw [pyLower] at hc
  simp only [List.mem_map] at hc
  obtain ⟨c0, _, rfl⟩ := hc
  exact toLower_not_upper c0

theorem mem_data_specFqdn (base_domain : String) (sub : Subdomain) (c : Char)
    (hc : c ∈ base_domain.data) : c ∈ (specFqdn base_domain sub).data := by
  rw [specFqdn]
  by_cases h : pyStrip (pyLower sub.name) ≠ "" ∧ pyStrip (pyLower sub.name) ≠ "@"
  · rw [if_pos h]
    rw [String.data_append]
    exact List.mem_append_right _ hc
  · rw [if_neg h]
    exact hc

theorem update_records_aux (ip : String) (ttl : Int) (api : ApiCall → Bool) :
    ∀ (n : Nat) (updates : List DnsUpdateRequest), updates.length ≤ n →
    update_records updates ip ttl api =
      updates.map (fun u => (makeCall u.zone_id u ip ttl, api (makeCall u.zone_id u ip ttl))) := by
  intro n
  induction n with
  | zero =>
    intro updates h
    rw [List.eq_nil_of_length_eq_zero (Nat.le_zero.mp h)]
    rw [update_records, pyGroupBy]
    rfl
  | succ n ih =>
    intro updates h
    match updates with
    | [] =>
      rw [update_records, pyGroupBy]
      rfl
    | a :: rest =>
      have hstep : pyGroupBy (fun u => u.zone_id) (a :: rest) =
          (a :: rest.takeWhile (fun x => x.zone_id == a.zone_id)) ::
            pyGroupBy (fun u => u.zone_id) (rest.dropWhile (fun x => x.zone_id == a.zone_id)) := by
        rw [pyGroupBy]
      rw [update_records, hstep, List.flatMap_cons]
      have hrec : (pyGroupBy (fun u => u.zone_id)
            (rest.dropWhile (fun x => x.zone_id == a.zone_id))).flatMap
          (fun grp => match grp with
            | [] => []
            | a :: _ => grp.map fun u => ((makeCall a.zone_id u ip ttl, api (makeCall a.zone_id u ip ttl)))) =
          update_records (rest.dropWhile (fun x => x.zone_id == a.zone_id)) ip ttl api := by
        rw [update_records]
      dsimp only
      rw [hrec]
      have hlen : (rest.dropWhile (fun x => x.zone_id == a.zone_id)).length ≤ n := by
        have h1 := (List.dropWhile_sublist (l := rest) (fun x => x.zone_id == a.zone_id)).length_le
        have h2 : rest.length + 1 ≤ n + 1 := by simpa using h
        omega
      rw [ih _ hlen]
      have hmap : (a :: rest.takeWhile (fun x => x.zone_id == a.zone_id)).map
            (fun u => (makeCall a.zone_id u ip ttl, api (makeCall a.zone_id u ip ttl))) =
          (a :: rest.takeWhile (fun x => x.zone_id == a.zone_id)).map
            (fun u => (makeCall u.zone_id u ip ttl, api (makeCall u.zone_id u ip ttl))) := by
        refine List.map_congr_left ?_
        intro u hu
        rcases List.mem_cons.mp hu with rfl | hu
        · rfl
        · have hz := beq_iff_eq.mp (List.mem_takeWhile_imp (p := fun (x : DnsUpdateRequest) => x.zone_id == a.zone_id) hu)
          rw [hz]
      rw [hmap, ← List.map_append]
      have : (a :: rest.takeWhile (fun x => x.zone_id == a.zone_id)) ++
          rest.dropWhile (fun x => x.zone_id == a.zone_id) = a :: rest := by
        rw [List.cons_append, List.takeWhile_append_dropWhile]
      rw [this]

/-- Restatement of update_records_aux at the list's own length: every update
of the batch is attempted exactly once, in order, and paired with the api
outcome of its own call. -/
theorem update_records_eq_map (updates : List DnsUpdateRequest) (ip : String)
    (ttl : Int) (api : ApiCall → Bool) :
    update_records updates ip ttl api =
      updates.map (fun u => (makeCall u.zone_id u ip ttl, api (makeCall u.zone_id u ip ttl))) :=
  update_records_aux ip ttl api updates.length updates (Nat.le_refl _)

/-- Configuration of the TTL-precedence test of tests/test_main.py (reduced
to the subdomain with the spec-level ttl 120 next to the global ttl 300). -/
def cfgTtlPrec : Config :=
  ⟨"test-zone", "example.com", some 300, [⟨"specific", some false, some 120⟩]⟩

/-- The single A record of the TTL-precedence test. -/
def recsTtlPrec : List ARecord :=
  [⟨"record1", "specific.example.com", "A", "1.1.1.1"⟩]

/-- The end-to-end scenario of the spec, also test_prepare_updates of the
repository: two specs, a named one and the apex. -/
def cfgScenario : Config :=
  ⟨"test-zone", "example.com", some 300,
    [⟨"test", some true, some 120⟩, ⟨"@", some false, none⟩]⟩

/-- The two A records of the end-to-end scenario. -/
def recsScenario : List ARecord :=
  [⟨"r1", "test.example.com", "A", "1.1.1.1"⟩, ⟨"r2", "example.com", "A", "1.1.1.1"⟩]

/-- The output of prepare_updates on the end-to-end scenario. -/
def outScenario : List DnsUpdateRequest :=
  [⟨"test-zone", "test.example.com", "r1", "A", true, "1.1.1.1"⟩,
   ⟨"test-zone", "example.com", "r2", "A", false, "1.1.1.1"⟩]

/-- Two subdomain specs that normalize to the same fqdn. -/
def cfgDupSpecs : Config :=
  ⟨"z", "example.com", none, [⟨"test", some true, none⟩, ⟨"TEST", some false, none⟩]⟩

/-- A single record matched by both duplicate specs. -/
def recsDup : List ARecord :=
  [⟨"r1", "test.example.com", "A", "1.1.1.1"⟩]

/-- The output of prepare_updates on the duplicate-spec input: two update
requests for the same fqdn. -/
def outDup : List DnsUpdateRequest :=
  [⟨"z", "test.example.com", "r1", "A", true, "1.1.1.1"⟩,
   ⟨"z", "test.example.com", "r1", "A", false, "1.1.1.1"⟩]

/-- Claim C1.  The code resolves no per-subdomain ttl: run uses the global
ttl (default 300) for every update.  At the failing input of the repository's
own TTL-precedence test (spec ttl 120, global ttl 300), the executed update
call carries ttl 300, not the 120 the claim requires. -/
theorem c1_subdomain_ttl_ignored :
    cfgTtlPrec.subdomains = [⟨"specific", some false, some 120⟩] ∧
    run_ttl cfgTtlPrec = 300 ∧
    prepare_updates cfgTtlPrec recsTtlPrec "2.2.2.2" =
      .ok [⟨"test-zone", "specific.example.com", "record1", "A", false, "1.1.1.1"⟩] ∧
    (update_records [⟨"test-zone", "specific.example.com", "record1", "A", false, "1.1.1.1"⟩]
        "2.2.2.2" (run_ttl cfgTtlPrec) (fun _ => true)).map (fun p => p.1.ttl) = [300] ∧
    (300 : Int) ≠ 120 := by
  refine ⟨rfl, rfl, rfl, ?_, by decide⟩
  rw [update_records_eq_map]
  rfl

/-- Claim C2.  On the end-to-end scenario, prepare_updates returns its
requests in spec declaration order, each carrying the matched record's id and
type, the spec's proxied flag and the record's previous content; the
DnsUpdateRequest dataclass carries no ttl field at all, against the claim's
resolved-ttl requirement. -/
theorem c2_request_fields_and_order :
    prepare_updates cfgScenario recsScenario "2.2.2.2" = .ok outScenario := rfl

/-- Claim C3, counterexample: with two specs normalizing to the same fqdn,
prepare_updates emits two update requests with the same fqdn. -/
theorem c3_counterexample :
    prepare_updates cfgDupSpecs recsDup "2.2.2.2" = .ok outDup ∧
    ¬ (outDup.map DnsUpdateRequest.fqdn).Nodup := by
  exact ⟨rfl, by decide⟩

/-- Claim C3, amended: if no two subdomain specs normalize to the same fqdn,
the returned list holds at most one update request per distinct fqdn. -/
theorem c3_at_most_one_per_fqdn (config : Config) (records : List ARecord)
    (ip : String) (l : List DnsUpdateRequest)
    (h : prepare_updates config records ip = .ok l)
    (hnd : (config.subdomains.map (specFqdn config.zone_name)).Nodup) :
    (l.map DnsUpdateRequest.fqdn).Nodup := by
  obtain ⟨-, rfl⟩ := (prepare_updates_ok_iff config records ip l).mp h
  exact (updatesPure_map_fqdn_sublist _ _ _ _ _).nodup hnd

/-- Witness for C3: the amended claim applied to the end-to-end scenario. -/
theorem c3_witness : (outScenario.map DnsUpdateRequest.fqdn).Nodup :=
  c3_at_most_one_per_fqdn cfgScenario recsScenario "2.2.2.2" outScenario rfl (by decide)

/-- Claim C4.  A subdomain spec whose fqdn has no record in the lower-cased
record map contributes nothing: no returned request carries that fqdn. -/
theorem c4_no_match_no_update (config : Config) (records : List ARecord)
    (ip : String) (l : List DnsUpdateRequest) (sub : Subdomain)
    (h : prepare_updates config records ip = .ok l)
    (hmiss : record_map_get records (specFqdn config.zone_name sub) = none) :
    ∀ u ∈ l, u.fqdn ≠ specFqdn config.zone_name sub := by
  obtain ⟨-, rfl⟩ := (prepare_updates_ok_iff config records ip l).mp h
  intro u hu heq
  obtain ⟨s, -, he⟩ := mem_updatesPure _ _ _ _ _ _ hu
  obtain ⟨r, hr, -, hueq⟩ := emitFor_some _ _ _ _ _ _ _ he
  rw [hueq] at heq
  dsimp only at heq
  rw [heq] at hr
  rw [hmiss] at hr
  cases hr

/-- Witness for C4: on the end-to-end scenario no returned request carries
the fqdn of an absent subdomain spec. -/
theorem c4_witness :
    DnsUpdateRequest.fqdn ⟨"test-zone", "test.example.com", "r1", "A", true, "1.1.1.1"⟩ ≠
      specFqdn "example.com" ⟨"missing", some true, none⟩ :=
  c4_no_match_no_update cfgScenario recsScenario "2.2.2.2" outScenario
    ⟨"missing", some true, none⟩ rfl rfl
    ⟨"test-zone", "test.example.com", "r1", "A", true, "1.1.1.1"⟩ (by decide)

/-- Claim C5.  A matched record whose content already equals the candidate ip
is excluded, and when every matched record equals the new ip the result is
empty. -/
theorem c5_no_redundant_update (config : Config) (records : List ARecord)
    (ip : String) (l : List DnsUpdateRequest)
    (h : prepare_updates config records ip = .ok l) :
    (∀ (sub : Subdomain) (r : ARecord),
        record_map_get records (specFqdn config.zone_name sub) = some r → r.content = ip →
        ∀ u ∈ l, u.fqdn ≠ specFqdn config.zone_name sub) ∧
    ((∀ sub ∈ config.subdomains, ∀ r : ARecord,
        record_map_get records (specFqdn config.zone_name sub) = some r → r.content = ip) →
      l = []) := by
  obtain ⟨-, rfl⟩ := (prepare_updates_ok_iff config records ip l).mp h
  constructor
  · intro sub r hr hip u hu heq
    obtain ⟨s, -, he⟩ := mem_updatesPure _ _ _ _ _ _ hu
    obtain ⟨r0, hr0, hne, hueq⟩ := emitFor_some _ _ _ _ _ _ _ he
    rw [hueq] at heq
    dsimp only at heq
    rw [heq] at hr0
    rw [hr] at hr0
    exact hne (Option.some.inj hr0 ▸ hip)
  · intro hall
    rw [List.eq_nil_iff_forall_not_mem]
    intro u hu
    obtain ⟨s, hs, he⟩ := mem_updatesPure _ _ _ _ _ _ hu
    obtain ⟨r0, hr0, hne, -⟩ := emitFor_some _ _ _ _ _ _ _ he
    exact hne (hall s hs r0 hr0)

/-- Witness for C5: a single spec matching a record that already holds the
new ip produces the empty list. -/
theorem c5_witness :
    prepare_updates ⟨"z", "example.com", none, [⟨"test", some true, none⟩]⟩
      recsDup "1.1.1.1" = .ok [] ∧
    ([] : List DnsUpdateRequest) = [] := by
  refine ⟨rfl, ?_⟩
  refine (c5_no_redundant_update ⟨"z", "example.com", none, [⟨"test", some true, none⟩]⟩
    recsDup "1.1.1.1" [] rfl).2 ?_
  intro sub hsub r hr
  have hs : sub = ⟨"test", some true, none⟩ := by
    rcases List.mem_singleton.mp hsub with rfl
    rfl
  rw [hs] at hr
  have hval : record_map_get recsDup (specFqdn "example.com" ⟨"test", some true, none⟩) =
      some ⟨"r1", "test.example.com", "A", "1.1.1.1"⟩ := rfl
  rw [hval] at hr
  rw [← Option.some.inj hr]

/-- Claim C6.  Name normalization: the fqdn of a spec is the base domain when
the lower-cased, stripped name is empty or the apex marker, and
name.base_domain otherwise; a spec named TEST matches a record named
Test.Example.Com case-insensitively. -/
theorem c6_normalization :
    (∀ (base_domain : String) (sub : Subdomain),
        specFqdn base_domain sub =
          if pyStrip (pyLower sub.name) = "" ∨ pyStrip (pyLower sub.name) = "@" then
            base_domain
          else
            pyStrip (pyLower sub.name) ++ "." ++ base_domain) ∧
    specFqdn "example.com" ⟨"TEST", some true, none⟩ = "test.example.com" ∧
    specFqdn "example.com" ⟨"@", some false, none⟩ = "example.com" ∧
    specFqdn "example.com" ⟨"", some false, none⟩ = "example.com" ∧
    prepare_updates ⟨"z", "example.com", none, [⟨"TEST", some true, none⟩]⟩
        [⟨"r1", "Test.Example.Com", "A", "1.1.1.1"⟩] "2.2.2.2" =
      .ok [⟨"z", "test.example.com", "r1", "A", true, "1.1.1.1"⟩] := by
  refine ⟨?_, rfl, rfl, rfl, rfl⟩
  intro base_domain sub
  simp only [specFqdn]
  by_cases h : pyStrip (pyLower sub.name) = "" ∨ pyStrip (pyLower sub.name) = "@"
  · rw [if_neg (by tauto), if_pos h]
  · rw [if_pos (by tauto), if_neg h]

/-- Claim C7.  prepare_updates is a pure function of its three arguments:
identical inputs give identical outputs. -/
theorem c7_deterministic (a b : Config) (ra rb : List ARecord) (ia ib : String)
    (hc : a = b) (hr : ra = rb) (hi : ia = ib) :
    prepare_updates a ra ia = prepare_updates b rb ib := by
  rw [hc, hr, hi]

/-- Witness for C7: determinism applied to the end-to-end scenario. -/
theorem c7_witness :
    prepare_updates cfgScenario recsScenario "2.2.2.2" =
      prepare_updates cfgScenario recsScenario "2.2.2.2" :=
  c7_deterministic cfgScenario cfgScenario recsScenario recsScenario
    "2.2.2.2" "2.2.2.2" rfl rfl rfl

/-- Claim C8.  update_records attempts every request of the batch exactly
once, in order, and each outcome is the api verdict on that request's own
call: a failure on one record cannot suppress or alter the attempt on any
other, and nothing is rolled back. -/
theorem c8_each_update_attempted (updates : List DnsUpdateRequest) (ip : String)
    (ttl : Int) (api : ApiCall → Bool) :
    update_records updates ip ttl api =
      updates.map (fun u => (makeCall u.zone_id u ip ttl, api (makeCall u.zone_id u ip ttl))) :=
  update_records_aux ip ttl api updates.length updates (Nat.le_refl _)

/-- Claim C9.  A configuration that passes the schema may omit proxied on a
subdomain (the schema marks it optional), yet prepare_updates raises KeyError
on such a spec instead of returning. -/
theorem c9_keyerror_missing_proxied :
    prepare_updates ⟨"z", "example.com", none, [⟨"test", none, none⟩]⟩
      recsDup "2.2.2.2" = .error "KeyError: proxied" := rfl

/-- Claim C10.  If the zone name contains an upper-case character, no lookup
into the lower-cased record map can succeed, so any list prepare_updates
returns is empty. -/
theorem c10_uppercase_base_no_updates (config : Config) (records : List ARecord)
    (ip : String) (l : List DnsUpdateRequest) (c : Char)
    (h : prepare_updates config records ip = .ok l)
    (hmem : c ∈ config.zone_name.data) (hup : c.isUpper = true) :
    l = [] := by
  obtain ⟨-, rfl⟩ := (prepare_updates_ok_iff config records ip l).mp h
  rw [List.eq_nil_iff_forall_not_mem]
  intro u hu
  obtain ⟨s, -, he⟩ := mem_updatesPure _ _ _ _ _ _ hu
  obtain ⟨r, hr, -, -⟩ := emitFor_some _ _ _ _ _ _ _ he
  have hlow := record_map_get_some _ _ _ hr
  have hcf : c ∈ (specFqdn config.zone_name s).data :=
    mem_data_specFqdn config.zone_name s c hmem
  rw [← hlow] at hcf
  rw [pyLower_no_upper r.name c hcf] at hup
  cases hup

/-- Witness for C10: a zone name with an upper-case E yields the empty list
even though a lower-cased record with the matching name exists. -/
theorem c10_witness :
    prepare_updates ⟨"z", "Example.com", none, [⟨"test", some true, none⟩]⟩
      recsDup "2.2.2.2" = .ok [] ∧
    ([] : List DnsUpdateRequest) = [] :=
  ⟨rfl, c10_uppercase_base_no_updates ⟨"z", "Example.com", none, [⟨"test", some true, none⟩]⟩
    recsDup "2.2.2.2" [] 'E' rfl (by decide) (by decide)⟩

end DDNS
